import Mathlib

/-!
Shallow embedding of the trading backtester in src/script.js and proofs
about its indicator math, trade state machine and performance aggregation.

Modelling choices:
* JavaScript numbers are modelled as exact rationals (ℚ).  The source never
  relies on floating-point rounding for the properties considered here; every
  arithmetic identity below is stated in exact arithmetic.
* A JavaScript value that can be NaN (reachable in calculateRSI through an
  out-of-bounds read, which yields undefined and coerces to NaN) is modelled
  by the type JSNum.
* An indicator array slot is null (from Array(n).fill(null)), a hole (created
  when an assignment past the end of a JS array extends it), or a number.
  SMA/EMA/MACD arrays never hold NaN and are never extended, so they are
  modelled directly as List (Option ℚ) with none for null.
* JS relational comparison coerces null to 0 and undefined to NaN (making the
  comparison false); strict inequality x !== null is true for undefined/NaN.
  These coercions are modelled explicitly where the source relies on them.
* JS division by zero yields ±Infinity or NaN; every division in the source
  is guarded (denominators are the positive period, 1 + rs with rs ≥ 0, or a
  value checked against 0), so the zero-denominator branch of JSNum.div is
  unreachable and is mapped to nan.
-/

/-- JavaScript number as reachable in this program: a rational or NaN. -/
inductive JSNum where
  | nan : JSNum
  | num : ℚ → JSNum
deriving DecidableEq, Repr

/-- Addition; NaN propagates. -/
def JSNum.add : JSNum → JSNum → JSNum
  | JSNum.num a, JSNum.num b => JSNum.num (a + b)
  | _, _ => JSNum.nan

/-- Subtraction; NaN propagates. -/
def JSNum.sub : JSNum → JSNum → JSNum
  | JSNum.num a, JSNum.num b => JSNum.num (a - b)
  | _, _ => JSNum.nan

/-- Multiplication; NaN propagates. -/
def JSNum.mul : JSNum → JSNum → JSNum
  | JSNum.num a, JSNum.num b => JSNum.num (a * b)
  | _, _ => JSNum.nan

/-- Division; NaN propagates.  The b = 0 case is unreachable at every call
site of the source (see module comment) and is mapped to nan. -/
def JSNum.div : JSNum → JSNum → JSNum
  | JSNum.num a, JSNum.num b => if b = 0 then JSNum.nan else JSNum.num (a / b)
  | _, _ => JSNum.nan

/-- Negation; NaN propagates. -/
def JSNum.neg : JSNum → JSNum
  | JSNum.num a => JSNum.num (-a)
  | JSNum.nan => JSNum.nan

/-- Comparison a >= b; false when either side is NaN (JS semantics). -/
def jsGe : JSNum → JSNum → Bool
  | JSNum.num a, JSNum.num b => decide (a ≥ b)
  | _, _ => false

/-- Comparison a > b; false when either side is NaN (JS semantics). -/
def jsGt : JSNum → JSNum → Bool
  | JSNum.num a, JSNum.num b => decide (a > b)
  | _, _ => false

/-- Comparison a < b; false when either side is NaN (JS semantics). -/
def jsLt : JSNum → JSNum → Bool
  | JSNum.num a, JSNum.num b => decide (a < b)
  | _, _ => false

/-- Slot of a JS array of numbers-or-null: null (fill(null)), a hole created
by assigning past the end, or a stored number. -/
inductive JSEntry where
  | null : JSEntry
  | hole : JSEntry
  | val : JSNum → JSEntry
deriving DecidableEq, Repr

/-- Assignment arr[i] = v on a JS array: in bounds it stores, past the end it
extends the array with holes up to index i. -/
def jsSet (arr : List JSEntry) (i : ℕ) (v : JSEntry) : List JSEntry :=
  if i < arr.length then arr.set i v
  else arr ++ List.replicate (i - arr.length) JSEntry.hole ++ [v]

/-- Read values[i] of a JS number array: out of bounds yields undefined,
which coerces to NaN in the arithmetic contexts where it is used. -/
def jsIdx (values : List ℚ) (i : ℕ) : JSNum :=
  match values[i]? with
  | some q => JSNum.num q
  | none => JSNum.nan

/-! ### calculateSMA (src/script.js lines 27-36) -/

/-- Loop body of calculateSMA: running sum, subtracting the value leaving the
window, recording sum/period once i ≥ period - 1. -/
def smaStep (values : List ℚ) (period : ℕ) (acc : List (Option ℚ) × ℚ) (i : ℕ) :
    List (Option ℚ) × ℚ :=
  let sum1 := acc.2 + values.getD i 0
  let sum2 := if period ≤ i then sum1 - values.getD (i - period) 0 else sum1
  (acc.1 ++ [if period - 1 ≤ i then some (sum2 / (period : ℚ)) else none], sum2)

/-- Simple moving average, running-sum implementation of the source. -/
def calculateSMA (values : List ℚ) (period : ℕ) : List (Option ℚ) :=
  ((List.range values.length).foldl (smaStep values period) ([], 0)).1

/-! ### calculateEMA (src/script.js lines 39-53) -/

/-- Smoothing factor k = 2 / (period + 1). -/
def emaK (period : ℕ) : ℚ := 2 / ((period : ℚ) + 1)

/-- Loop body of calculateEMA: prev is none before the first iteration
(JS prev === undefined), seeded with the first price, then the recurrence
prev = price * k + prev * (1 - k); recorded once i ≥ period - 1. -/
def emaStep (values : List ℚ) (period : ℕ) (acc : List (Option ℚ) × Option ℚ) (i : ℕ) :
    List (Option ℚ) × Option ℚ :=
  let price := values.getD i 0
  let prev :=
    match acc.2 with
    | none => price
    | some p => price * emaK period + p * (1 - emaK period)
  (acc.1 ++ [if period - 1 ≤ i then some prev else none], some prev)

/-- Exponential moving average of the source (seeded with values[0]). -/
def calculateEMA (values : List ℚ) (period : ℕ) : List (Option ℚ) :=
  ((List.range values.length).foldl (emaStep values period) ([], none)).1

/-! ### calculateRSI (src/script.js lines 56-88) -/

/-- Seed loop body of calculateRSI: change = values[i] - values[i-1];
change >= 0 adds to gains, otherwise losses grow by -change. -/
def rsiSeedStep (values : List ℚ) (acc : JSNum × JSNum) (i : ℕ) : JSNum × JSNum :=
  let change := JSNum.sub (jsIdx values i) (jsIdx values (i - 1))
  if jsGe change (JSNum.num 0) then (JSNum.add acc.1 change, acc.2)
  else (acc.1, JSNum.sub acc.2 change)

/-- RSI formula 100 - 100 / (1 + avgGain / avgLoss). -/
def rsiFormula (avgGain avgLoss : JSNum) : JSNum :=
  JSNum.sub (JSNum.num 100)
    (JSNum.div (JSNum.num 100) (JSNum.add (JSNum.num 1) (JSNum.div avgGain avgLoss)))

/-- Main loop body of calculateRSI: Wilder smoothing of average gain and
average loss, then rsi[i] = 100 when avgLoss === 0, else the RSI formula. -/
def wilderStep (values : List ℚ) (period : ℕ)
    (acc : List JSEntry × JSNum × JSNum) (i : ℕ) : List JSEntry × JSNum × JSNum :=
  let change := JSNum.sub (jsIdx values i) (jsIdx values (i - 1))
  let gain := if jsGt change (JSNum.num 0) then change else JSNum.num 0
  let loss := if jsLt change (JSNum.num 0) then JSNum.neg change else JSNum.num 0
  let avgGain := JSNum.div (JSNum.add (JSNum.mul acc.2.1 (JSNum.num ((period : ℚ) - 1))) gain)
    (JSNum.num (period : ℚ))
  let avgLoss := JSNum.div (JSNum.add (JSNum.mul acc.2.2 (JSNum.num ((period : ℚ) - 1))) loss)
    (JSNum.num (period : ℚ))
  let arr :=
    if avgLoss = JSNum.num 0 then jsSet acc.1 i (JSEntry.val (JSNum.num 100))
    else jsSet acc.1 i (JSEntry.val (rsiFormula avgGain avgLoss))
  (arr, avgGain, avgLoss)

/-- RSI with Wilder smoothing, faithful to the source including the JS array
semantics: the seed loop reads values[1..period] (out of bounds when the
series is too short, yielding NaN), and the assignment rsi[period] extends
the array when period ≥ length. -/
def calculateRSI (values : List ℚ) (period : ℕ) : List JSEntry :=
  let seed := (List.range' 1 period).foldl (rsiSeedStep values) (JSNum.num 0, JSNum.num 0)
  let avgGain := JSNum.div seed.1 (JSNum.num (period : ℚ))
  let avgLoss := JSNum.div seed.2 (JSNum.num (period : ℚ))
  let rsi0 : List JSEntry := List.replicate values.length JSEntry.null
  let rsi1 :=
    if avgLoss = JSNum.num 0 then jsSet rsi0 period (JSEntry.val (JSNum.num 100))
    else jsSet rsi0 period (JSEntry.val (rsiFormula avgGain avgLoss))
  ((List.range' (period + 1) (values.length - (period + 1))).foldl
    (wilderStep values period) (rsi1, avgGain, avgLoss)).1

/-! ### calculateMACD (src/script.js lines 91-100) -/

/-- Result of calculateMACD. -/
structure MACDResult where
  macdLine : List (Option ℚ)
  signalLine : List (Option ℚ)
deriving DecidableEq, Repr

/-- MACD: difference of fast and slow EMA where both are defined, else null;
the signal line is the EMA of the MACD line with nulls replaced by 0. -/
def calculateMACD (values : List ℚ) (fastPeriod slowPeriod signalPeriod : ℕ) : MACDResult :=
  let emaFast := calculateEMA values fastPeriod
  let emaSlow := calculateEMA values slowPeriod
  let macdLine := (List.range values.length).map (fun i =>
    match emaFast.getD i none, emaSlow.getD i none with
    | some a, some b => some (a - b)
    | _, _ => none)
  let signalLine := calculateEMA (macdLine.map (fun v => v.getD 0)) signalPeriod
  ⟨macdLine, signalLine⟩

/-! ### runBacktest (src/script.js lines 103-165) -/

/-- Configuration of a run (collected by the controller in the source). -/
structure BTParams where
  maPeriod : ℕ
  rsiPeriod : ℕ
  rsiOverbought : ℚ
  macdFast : ℕ
  macdSlow : ℕ
  macdSignal : ℕ
deriving DecidableEq, Repr

/-- Closed trade.  The source stores data[i].date for entry and exit; dates
are positionally determined, so the embedding records the indices. -/
structure Trade where
  entryIndex : ℕ
  exitIndex : ℕ
  entryPrice : ℚ
  exitPrice : ℚ
  pnl : ℚ
deriving DecidableEq, Repr

/-- Mutable locals of the backtest loop. -/
structure BTState where
  trades : List Trade
  inTrade : Bool
  entryPrice : ℚ
  entryIndex : ℕ
deriving DecidableEq, Repr

/-- JS relational comparison of a number-or-null: null coerces to 0. -/
def optNum (o : Option ℚ) : ℚ := o.getD 0

/-- Strict test e !== null; true for holes (undefined) and NaN as well. -/
def jsNeNull : JSEntry → Bool
  | JSEntry.null => false
  | _ => true

/-- JS comparison e < q of an array slot against a number: null coerces to 0,
undefined (hole) and NaN compare false. -/
def jsLtNum (e : JSEntry) (q : ℚ) : Bool :=
  match e with
  | JSEntry.null => decide ((0 : ℚ) < q)
  | JSEntry.hole => false
  | JSEntry.val JSNum.nan => false
  | JSEntry.val (JSNum.num a) => decide (a < q)

/-- Entry condition of the backtest loop (lines 122-129).  Note the source
guards macdLine and rsi against null but not sma: a null sma[i] coerces
to 0 in closes[i] > sma[i].  All reads are in bounds in the loop, so the
getD defaults are never used. -/
def buySignal (closes : List ℚ) (sma macd sig : List (Option ℚ)) (rsi : List JSEntry)
    (overbought : ℚ) (i : ℕ) : Bool :=
  decide (closes.getD i 0 > optNum (sma.getD i none)) &&
  (macd.getD (i - 1) none).isSome &&
  (macd.getD i none).isSome &&
  decide (optNum (macd.getD (i - 1) none) ≤ optNum (sig.getD (i - 1) none)) &&
  decide (optNum (macd.getD i none) > optNum (sig.getD i none)) &&
  jsNeNull (rsi.getD i JSEntry.hole) &&
  jsLtNum (rsi.getD i JSEntry.hole) overbought

/-- Exit condition of the backtest loop (lines 138-139); nulls coerce to 0. -/
def sellSignal (macd sig : List (Option ℚ)) (i : ℕ) : Bool :=
  decide (optNum (macd.getD (i - 1) none) ≥ optNum (sig.getD (i - 1) none)) &&
  decide (optNum (macd.getD i none) < optNum (sig.getD i none))

/-- One iteration of the backtest loop at index i (lines 119-154). -/
def btStep (closes : List ℚ) (sma macd sig : List (Option ℚ)) (rsi : List JSEntry)
    (overbought : ℚ) (st : BTState) (i : ℕ) : BTState :=
  if st.inTrade = false then
    if buySignal closes sma macd sig rsi overbought i then
      { st with inTrade := true, entryPrice := closes.getD i 0, entryIndex := i }
    else st
  else
    if sellSignal macd sig i || i == closes.length - 1 then
      { st with
        trades := st.trades ++
          [⟨st.entryIndex, i, st.entryPrice, closes.getD i 0, closes.getD i 0 - st.entryPrice⟩],
        inTrade := false }
    else st

/-- State of the backtest loop after processing indices 1, ..., m. -/
def btStateAfter (closes : List ℚ) (p : BTParams) (m : ℕ) : BTState :=
  let sma := calculateSMA closes p.maPeriod
  let rsi := calculateRSI closes p.rsiPeriod
  let macd := calculateMACD closes p.macdFast p.macdSlow p.macdSignal
  (List.range' 1 m).foldl
    (btStep closes sma macd.macdLine macd.signalLine rsi p.rsiOverbought)
    ⟨[], false, 0, 0⟩

/-- Number of winning trades (pnl > 0). -/
def winsCount (trades : List Trade) : ℕ :=
  (trades.filter (fun t => decide (t.pnl > 0))).length

/-- Sum of pnl over winning trades. -/
def grossProfit (trades : List Trade) : ℚ :=
  ((trades.filter (fun t => decide (t.pnl > 0))).map Trade.pnl).sum

/-- Sum of |pnl| over losing trades. -/
def grossLoss (trades : List Trade) : ℚ :=
  ((trades.filter (fun t => decide (t.pnl < 0))).map (fun t => |t.pnl|)).sum

/-- Result of a run; profitFactor = none models the JS Infinity sentinel. -/
structure BTResult where
  trades : List Trade
  winRate : ℚ
  totalTrades : ℕ
  profitFactor : Option ℚ
deriving DecidableEq, Repr

/-- Performance metrics of lines 156-164; the JS truthiness tests
(totalTrades ? ... and grossLoss ? ...) are tests against 0. -/
def performance (trades : List Trade) : BTResult :=
  { trades := trades
    winRate :=
      if trades.length = 0 then 0 else ((winsCount trades : ℚ) / (trades.length : ℚ)) * 100
    totalTrades := trades.length
    profitFactor :=
      if grossLoss trades = 0 then none
      else some (grossProfit trades / grossLoss trades) }

/-- Whole backtest: indicators, the trade loop over indices 1..length-1,
then the performance metrics. -/
def runBacktest (closes : List ℚ) (p : BTParams) : BTResult :=
  performance (btStateAfter closes p (closes.length - 1)).trades

/-! ### Reference definitions taken from the spec's words -/

/-- Modelled from the spec: SMA value at index i is Undefined for
i < period - 1 and otherwise the arithmetic mean of
values[i - period + 1 .. i]. -/
def smaSpec (values : List ℚ) (period i : ℕ) : Option ℚ :=
  if i < period - 1 then none
  else some ((((values.drop (i + 1 - period)).take period).sum) / (period : ℚ))

/-- Modelled from the spec: the EMA running value, seeded with values[0] and
following running = values[i] * k + running * (1 - k) from index 1 on. -/
def emaRef (values : List ℚ) (k : ℚ) : ℕ → ℚ
  | 0 => values.getD 0 0
  | i + 1 => values.getD (i + 1) 0 * k + emaRef values k i * (1 - k)

/-- Modelled from the spec: one step of the RSI seed sums — a nonnegative
delta goes to gains, the absolute value of a negative delta to losses. -/
def rsiSeedStepRef (values : List ℚ) (gl : ℚ × ℚ) (i : ℕ) : ℚ × ℚ :=
  let change := values.getD i 0 - values.getD (i - 1) 0
  if 0 ≤ change then (gl.1 + change, gl.2) else (gl.1, gl.2 - change)

/-- Modelled from the spec: seed sums of the RSI — positive deltas into
gains, absolute values of negative deltas into losses, over indices
1..period. -/
def rsiSeedSums (values : List ℚ) (period : ℕ) : ℚ × ℚ :=
  (List.range' 1 period).foldl (rsiSeedStepRef values) (0, 0)

/-- Modelled from the spec: smoothed average gain and loss at index
period + j — the simple-average seed at j = 0, then Wilder smoothing. -/
def rsiAvgs (values : List ℚ) (period : ℕ) : ℕ → ℚ × ℚ
  | 0 =>
    ((rsiSeedSums values period).1 / (period : ℚ), (rsiSeedSums values period).2 / (period : ℚ))
  | j + 1 =>
    let prev := rsiAvgs values period j
    let change := values.getD (period + j + 1) 0 - values.getD (period + j) 0
    ((prev.1 * ((period : ℚ) - 1) + max change 0) / (period : ℚ),
     (prev.2 * ((period : ℚ) - 1) + max (-change) 0) / (period : ℚ))

/-- Modelled from the spec: RSI value at index period + j — 100 when the
smoothed average loss is zero, else 100 - 100 / (1 + avgGain / avgLoss). -/
def rsiValSpec (values : List ℚ) (period j : ℕ) : ℚ :=
  if (rsiAvgs values period j).2 = 0 then 100
  else 100 - 100 / (1 + (rsiAvgs values period j).1 / (rsiAvgs values period j).2)

/-! ### Invariants used in the proofs -/

/-- Invariant of the backtest loop before processing index i: recorded trades
close after they open, are chronologically disjoint and closed before i, and
an open position was opened before i and after every recorded exit. -/
def btInv (st : BTState) (i : ℕ) : Prop :=
  (∀ t ∈ st.trades, t.entryIndex < t.exitIndex ∧ t.exitIndex < i) ∧
  List.Chain' (fun a b => a.exitIndex < b.entryIndex) st.trades ∧
  (st.inTrade = true → st.entryIndex < i ∧ ∀ t ∈ st.trades, t.exitIndex < st.entryIndex)

/-- Invariant of the RSI main loop after processing index m: the array keeps
its length, indices below period (and those not yet reached) are null,
processed indices hold the spec value, and the running averages agree with
the spec recurrence. -/
def wilderInv (values : List ℚ) (period : ℕ)
    (acc : List JSEntry × JSNum × JSNum) (m : ℕ) : Prop :=
  acc.1.length = values.length ∧
  (∀ i, i < values.length → i < period → acc.1[i]? = some JSEntry.null) ∧
  (∀ i, period ≤ i → i ≤ m → i < values.length →
    acc.1[i]? = some (JSEntry.val (JSNum.num (rsiValSpec values period (i - period))))) ∧
  (∀ i, m < i → i < values.length → acc.1[i]? = some JSEntry.null) ∧
  acc.2.1 = JSNum.num (rsiAvgs values period (m - period)).1 ∧
  acc.2.2 = JSNum.num (rsiAvgs values period (m - period)).2

/-! ### Concrete data used in witnesses and counterexamples -/

/-- Closing prices of the end-to-end example of the spec. -/
def exCloses : List ℚ := [10, 11, 12, 11, 10, 9, 10, 11, 13, 14]

/-- Configuration of the end-to-end example of the spec. -/
def exParams : BTParams := ⟨3, 3, 70, 2, 4, 2⟩

/-- Series whose SMA(10) is everywhere Undefined while MACD and RSI warm up
quickly: the V shape produces a bullish MACD crossover at index 3. -/
def c1Closes : List ℚ := [10, 9, 8, 9, 10]

/-- Configuration with a long SMA period and short MACD/RSI periods. -/
def c1Params : BTParams := ⟨10, 2, 70, 2, 3, 2⟩

/-- Series producing an entry at index 3 that stays open to the last bar. -/
def c2Closes : List ℚ := [10, 9, 8, 9, 10, 11, 12, 13]

/-- Configuration for the forced-liquidation witness. -/
def c2Params : BTParams := ⟨2, 2, 70, 2, 3, 2⟩

/-- Series with a MACD zero up-crossing at index 4 and down-crossing at 5. -/
def c10Closes : List ℚ := [10, 9, 8, 9, 10, 9, 8, 7]

/-- Configuration whose signal period 9 exceeds both EMA periods and the
series length, so the signal line is Undefined everywhere. -/
def c10Params : BTParams := ⟨2, 2, 80, 2, 3, 9⟩

/-! ### Helper lemmas -/

theorem JSNum.sub_nan (x : JSNum) : JSNum.sub x JSNum.nan = JSNum.nan := by
  cases x <;> rfl

theorem JSNum.nan_sub (x : JSNum) : JSNum.sub JSNum.nan x = JSNum.nan := by
  cases x <;> rfl

theorem JSNum.add_nan (x : JSNum) : JSNum.add x JSNum.nan = JSNum.nan := by
  cases x <;> rfl

theorem JSNum.div_nan (x : JSNum) : JSNum.div x JSNum.nan = JSNum.nan := by
  cases x <;> rfl

theorem JSNum.nan_div (x : JSNum) : JSNum.div JSNum.nan x = JSNum.nan := by
  cases x <;> rfl

theorem jsGe_nan (y : JSNum) : jsGe JSNum.nan y = false := by
  cases y <;> rfl

theorem rsiFormula_nan_loss (x : JSNum) : rsiFormula x JSNum.nan = JSNum.nan := by
  unfold rsiFormula
  rw [JSNum.div_nan, JSNum.add_nan, JSNum.div_nan, JSNum.sub_nan]

theorem jsIdx_of_lt {values : List ℚ} {i : ℕ} (h : i < values.length) :
    jsIdx values i = JSNum.num (values.getD i 0) := by
  unfold jsIdx
  rw [List.getElem?_eq_getElem h, List.getD_eq_getElem values 0 h]

theorem jsIdx_of_le {values : List ℚ} {i : ℕ} (h : values.length ≤ i) :
    jsIdx values i = JSNum.nan := by
  unfold jsIdx
  rw [List.getElem?_eq_none h]

theorem mem_of_getLast?_eq {α : Type} {l : List α} {a : α} (h : l.getLast? = some a) :
    a ∈ l := by
  cases hl : l with
  | nil => subst hl; simp at h
  | cons x xs =>
    subst hl
    rw [List.getLast?_eq_getLast_of_ne_nil (by simp)] at h
    injection h with h2
    rw [← h2]
    exact List.getLast_mem _

/-! ### SMA: the running sum equals the trailing-window sum -/

theorem window_sum_step (values : List ℚ) (period : ℕ) (hp : 1 ≤ period) (m : ℕ)
    (hm : m < values.length) :
    ((values.take (m + 1)).drop (m + 1 - period)).sum =
      (if period ≤ m
       then ((values.take m).drop (m - period)).sum + values.getD m 0 -
         values.getD (m - period) 0
       else ((values.take m).drop (m - period)).sum + values.getD m 0) := by
  have htake : values.take (m + 1) = values.take m ++ [values[m]] := by
    rw [List.take_succ, List.getElem?_eq_getElem hm]
    rfl
  have hlen : (values.take m).length = m := by
    rw [List.length_take]
    omega
  have hgm : values.getD m 0 = values[m] := List.getD_eq_getElem values 0 hm
  rw [htake, List.drop_append_eq_append_drop, hlen]
  have hsub : m + 1 - period - m = 0 := by omega
  rw [hsub, List.drop_zero, List.sum_append, List.sum_cons, List.sum_nil]
  by_cases hpm : period ≤ m
  · rw [if_pos hpm]
    have h1 : m + 1 - period = (m - period) + 1 := by omega
    have h2 : m - period < (values.take m).length := by omega
    have h3 : m - period < values.length := by omega
    have hgmp : values.getD (m - period) 0 = values[m - period] :=
      List.getD_eq_getElem values 0 h3
    have hcons := List.drop_eq_getElem_cons h2
    rw [h1, hgm, hgmp]
    have : ((values.take m).drop (m - period)).sum =
        values[m - period] + ((values.take m).drop (m - period + 1)).sum := by
      rw [hcons, List.sum_cons, List.getElem_take]
    rw [this]
    ring
  · rw [if_neg hpm]
    have h1 : m + 1 - period = 0 := by omega
    have h2 : m - period = 0 := by omega
    rw [h1, h2]
    simp only [List.drop_zero, hgm]
    ring

theorem sma_foldl (values : List ℚ) (period : ℕ) (hp : 1 ≤ period) :
    ∀ m, m ≤ values.length →
      (List.range m).foldl (smaStep values period) ([], 0) =
        ((List.range m).map (fun i =>
          if period - 1 ≤ i then
            some ((((values.take (i + 1)).drop (i + 1 - period)).sum) / (period : ℚ))
          else none),
         ((values.take m).drop (m - period)).sum) := by
  intro m
  induction m with
  | zero => intro _; simp
  | succ m ih =>
    intro hm
    have hm' : m ≤ values.length := Nat.le_of_succ_le hm
    have hmlt : m < values.length := hm
    rw [List.range_succ, List.foldl_append, ih hm', List.map_append,
      List.foldl_cons, List.foldl_nil, List.map_cons, List.map_nil]
    have hsum := window_sum_step values period hp m hmlt
    simp only [smaStep]
    rw [← hsum]

theorem calculateSMA_eq (values : List ℚ) (period : ℕ) (hp : 1 ≤ period) :
    calculateSMA values period = (List.range values.length).map (fun i =>
      if period - 1 ≤ i then
        some ((((values.take (i + 1)).drop (i + 1 - period)).sum) / (period : ℚ))
      else none) := by
  unfold calculateSMA
  rw [sma_foldl values period hp values.length le_rfl]

/-- C4: the running-sum SMA returns Undefined at every index i < period - 1
and, at every index i ≥ period - 1, exactly the arithmetic mean of
values[i - period + 1 .. i]: the incremental add-incoming/subtract-outgoing
computation equals the recompute-from-scratch reference smaSpec. -/
theorem C4_sma_refines_spec (values : List ℚ) (period : ℕ) (hp : 1 ≤ period)
    (i : ℕ) (hi : i < values.length) :
    (calculateSMA values period)[i]? = some (smaSpec values period i) := by
  rw [calculateSMA_eq values period hp, List.getElem?_map, List.getElem?_range hi,
    Option.map_some']
  unfold smaSpec
  by_cases h : period - 1 ≤ i
  · rw [if_pos h, if_neg (by omega)]
    have h2 : i + 1 - (i + 1 - period) = period := by omega
    rw [List.drop_take, h2]
  · rw [if_neg h, if_pos (by omega)]

/-- Witness for C4 at the spec example series, period 3, index 4. -/
theorem C4_sma_refines_spec_witness :
    1 ≤ 3 ∧ 4 < exCloses.length ∧
      (calculateSMA exCloses 3)[4]? = some (smaSpec exCloses 3 4) :=
  ⟨by decide, by decide, C4_sma_refines_spec exCloses 3 (by decide) 4 (by decide)⟩

/-! ### EMA: the reported series masks the spec recurrence -/

theorem ema_foldl (values : List ℚ) (period : ℕ) :
    ∀ m, (List.range m).foldl (emaStep values period) ([], none) =
      ((List.range m).map (fun i =>
        if period - 1 ≤ i then some (emaRef values (emaK period) i) else none),
       if m = 0 then none else some (emaRef values (emaK period) (m - 1))) := by
  intro m
  induction m with
  | zero => simp
  | succ m ih =>
    rw [List.range_succ, List.foldl_append, ih, List.map_append, List.foldl_cons,
      List.foldl_nil, List.map_cons, List.map_nil]
    cases m with
    | zero => simp [emaStep, emaRef]
    | succ m' => simp [emaStep, emaRef]

theorem calculateEMA_eq (values : List ℚ) (period : ℕ) :
    calculateEMA values period = (List.range values.length).map (fun i =>
      if period - 1 ≤ i then some (emaRef values (emaK period) i) else none) := by
  unfold calculateEMA
  rw [ema_foldl values period values.length]

theorem calculateEMA_length (values : List ℚ) (period : ℕ) :
    (calculateEMA values period).length = values.length := by
  rw [calculateEMA_eq]
  simp

/-- C5: the EMA running value is seeded with values[0], follows the
recurrence running = values[i]*k + running*(1-k) for every i ≥ 1 with
k = 2/(period+1), and the returned series is this running value at indices
i ≥ period - 1 and Undefined below. -/
theorem C5_ema_recurrence (values : List ℚ) (period : ℕ) (hp : 1 ≤ period)
    (hne : values ≠ []) (i : ℕ) (hi : i < values.length) :
    (calculateEMA values period)[i]? =
      some (if i < period - 1 then none else some (emaRef values (emaK period) i)) ∧
    emaRef values (emaK period) 0 = values.head hne ∧
    (∀ j, emaRef values (emaK period) (j + 1) =
      values.getD (j + 1) 0 * emaK period +
        emaRef values (emaK period) j * (1 - emaK period)) := by
  refine ⟨?_, ?_, fun j => rfl⟩
  · rw [calculateEMA_eq, List.getElem?_map, List.getElem?_range hi, Option.map_some']
    by_cases h : period - 1 ≤ i
    · rw [if_pos h, if_neg (by omega)]
    · rw [if_neg h, if_pos (by omega)]
  · cases values with
    | nil => exact absurd rfl hne
    | cons x xs => rfl

/-- Witness for C5 at the spec example series, period 3, index 4. -/
theorem C5_ema_recurrence_witness :
    1 ≤ 3 ∧ exCloses ≠ [] ∧ 4 < exCloses.length ∧
      ((calculateEMA exCloses 3)[4]? =
        some (if 4 < 3 - 1 then none else some (emaRef exCloses (emaK 3) 4)) ∧
       emaRef exCloses (emaK 3) 0 = exCloses.head (by decide) ∧
       (∀ j, emaRef exCloses (emaK 3) (j + 1) =
         exCloses.getD (j + 1) 0 * emaK 3 + emaRef exCloses (emaK 3) j * (1 - emaK 3))) :=
  ⟨by decide, by decide, by decide,
    C5_ema_recurrence exCloses 3 (by decide) (by decide) 4 (by decide)⟩

/-! ### MACD -/

/-- C7: macdLine[i] is the difference of the fast and slow EMA when both are
defined and Undefined exactly when one of them is, and the signal line is
the EMA, with the signal period, of the MACD line with every Undefined
entry replaced by 0. -/
theorem C7_macd (values : List ℚ) (f s g : ℕ) (i : ℕ) (hi : i < values.length) :
    ((calculateMACD values f s g).macdLine.getD i none = none ↔
      (calculateEMA values f).getD i none = none ∨
      (calculateEMA values s).getD i none = none) ∧
    (∀ a b, (calculateEMA values f).getD i none = some a →
      (calculateEMA values s).getD i none = some b →
      (calculateMACD values f s g).macdLine.getD i none = some (a - b)) ∧
    (calculateMACD values f s g).signalLine =
      calculateEMA ((calculateMACD values f s g).macdLine.map (fun v => v.getD 0)) g := by
  have hline : (calculateMACD values f s g).macdLine.getD i none =
      (match (calculateEMA values f).getD i none, (calculateEMA values s).getD i none with
       | some a, some b => some (a - b)
       | _, _ => none) := by
    show ((List.range values.length).map (fun j =>
      match (calculateEMA values f).getD j none, (calculateEMA values s).getD j none with
      | some a, some b => some (a - b)
      | _, _ => none)).getD i none = _
    have hlen : i < ((List.range values.length).map (fun j =>
      match (calculateEMA values f).getD j none, (calculateEMA values s).getD j none with
      | some a, some b => some (a - b)
      | _, _ => none)).length := by simpa using hi
    rw [List.getD_eq_getElem _ none hlen, List.getElem_map, List.getElem_range]
  refine ⟨?_, ?_, rfl⟩
  · rw [hline]
    cases hf : (calculateEMA values f).getD i none with
    | none => cases hs : (calculateEMA values s).getD i none <;> simp
    | some a => cases hs : (calculateEMA values s).getD i none <;> simp
  · intro a b hfa hsb
    rw [hline, hfa, hsb]

/-- Witness for C7 at the spec example series, index 3. -/
theorem C7_macd_witness :
    3 < exCloses.length ∧
      (((calculateMACD exCloses 2 4 2).macdLine.getD 3 none = none ↔
        (calculateEMA exCloses 2).getD 3 none = none ∨
        (calculateEMA exCloses 4).getD 3 none = none) ∧
      (∀ a b, (calculateEMA exCloses 2).getD 3 none = some a →
        (calculateEMA exCloses 4).getD 3 none = some b →
        (calculateMACD exCloses 2 4 2).macdLine.getD 3 none = some (a - b)) ∧
      (calculateMACD exCloses 2 4 2).signalLine =
        calculateEMA ((calculateMACD exCloses 2 4 2).macdLine.map (fun v => v.getD 0)) 2) :=
  ⟨by decide, C7_macd exCloses 2 4 2 3 (by decide)⟩

/-! ### Performance aggregation -/

theorem performance_spec (trades : List Trade) :
    (performance trades).totalTrades = trades.length ∧
    (performance trades).winRate =
      (if trades.length = 0 then 0
       else 100 * (winsCount trades : ℚ) / (trades.length : ℚ)) ∧
    ((performance trades).profitFactor = none ↔ grossLoss trades = 0) ∧
    (grossLoss trades ≠ 0 →
      (performance trades).profitFactor =
        some (grossProfit trades / grossLoss trades)) := by
  refine ⟨rfl, ?_, ?_, ?_⟩
  · show (if trades.length = 0 then 0
      else ((winsCount trades : ℚ) / (trades.length : ℚ)) * 100) = _
    by_cases h : trades.length = 0
    · rw [if_pos h, if_pos h]
    · rw [if_neg h, if_neg h]
      ring
  · show (if grossLoss trades = 0 then none
      else some (grossProfit trades / grossLoss trades)) = none ↔ _
    by_cases h : grossLoss trades = 0
    · rw [if_pos h]
      simp [h]
    · rw [if_neg h]
      simp [h]
  · intro h
    show (if grossLoss trades = 0 then none
      else some (grossProfit trades / grossLoss trades)) = _
    rw [if_neg h]

/-- C8: the aggregator counts the trades, reports winRate 100·wins/total
(0 with no trades), and reports the infinite sentinel exactly when the gross
loss is 0 — also when the gross profit is 0 too — else grossProfit/grossLoss;
in this exact-arithmetic embedding no division fault can occur. -/
theorem C8_aggregator (closes : List ℚ) (p : BTParams) :
    (runBacktest closes p).totalTrades = (runBacktest closes p).trades.length ∧
    (runBacktest closes p).winRate =
      (if (runBacktest closes p).trades.length = 0 then 0
       else 100 * (winsCount (runBacktest closes p).trades : ℚ) /
         ((runBacktest closes p).trades.length : ℚ)) ∧
    ((runBacktest closes p).profitFactor = none ↔
      grossLoss (runBacktest closes p).trades = 0) ∧
    (grossLoss (runBacktest closes p).trades ≠ 0 →
      (runBacktest closes p).profitFactor =
        some (grossProfit (runBacktest closes p).trades /
          grossLoss (runBacktest closes p).trades)) :=
  performance_spec ((btStateAfter closes p (closes.length - 1)).trades)

/-- Witness for C8 at the spec example run. -/
theorem C8_aggregator_witness :
    (runBacktest exCloses exParams).totalTrades =
      (runBacktest exCloses exParams).trades.length ∧
    (runBacktest exCloses exParams).winRate =
      (if (runBacktest exCloses exParams).trades.length = 0 then 0
       else 100 * (winsCount (runBacktest exCloses exParams).trades : ℚ) /
         ((runBacktest exCloses exParams).trades.length : ℚ)) ∧
    ((runBacktest exCloses exParams).profitFactor = none ↔
      grossLoss (runBacktest exCloses exParams).trades = 0) ∧
    (grossLoss (runBacktest exCloses exParams).trades ≠ 0 →
      (runBacktest exCloses exParams).profitFactor =
        some (grossProfit (runBacktest exCloses exParams).trades /
          grossLoss (runBacktest exCloses exParams).trades)) :=
  C8_aggregator exCloses exParams

/-! ### Entry guards of the trade state machine -/

/-- C1 (amended): an Undefined macdLine[i-1], macdLine[i] or RSI[i] never
triggers the FLAT → LONG transition — entry requires both MACD reads to be
defined and the RSI slot to hold a number below the overbought threshold.
The SMA carries no such guard: a null sma[i] is compared as 0. -/
theorem C1_amended_guards (closes : List ℚ) (sma macd sig : List (Option ℚ))
    (rsi : List JSEntry) (ob : ℚ) (st : BTState) (i : ℕ)
    (hFlat : st.inTrade = false)
    (hEnter : (btStep closes sma macd sig rsi ob st i).inTrade = true) :
    (macd.getD (i - 1) none).isSome = true ∧ (macd.getD i none).isSome = true ∧
    ∃ q, rsi.getD i JSEntry.hole = JSEntry.val (JSNum.num q) ∧ q < ob := by
  unfold btStep at hEnter
  rw [if_pos hFlat] at hEnter
  by_cases hBuy : buySignal closes sma macd sig rsi ob i = true
  · rw [if_pos hBuy] at hEnter
    simp only [buySignal, Bool.and_eq_true, decide_eq_true_eq] at hBuy
    obtain ⟨⟨⟨⟨⟨⟨h1, h2⟩, h3⟩, h4⟩, h5⟩, h6⟩, h7⟩ := hBuy
    refine ⟨h2, h3, ?_⟩
    cases he : rsi.getD i JSEntry.hole with
    | null =>
      rw [he] at h6
      exact absurd h6 (by simp [jsNeNull])
    | hole =>
      rw [he] at h7
      exact absurd h7 (by simp [jsLtNum])
    | val x =>
      cases x with
      | nan =>
        rw [he] at h7
        exact absurd h7 (by simp [jsLtNum])
      | num q =>
        rw [he] at h7
        refine ⟨q, rfl, ?_⟩
        simpa [jsLtNum] using h7
  · rw [if_neg hBuy] at hEnter
    rw [hFlat] at hEnter
    exact Bool.noConfusion hEnter

/-- Witness for the amended C1 at the concrete entry of the counterexample
run (index 3 of c1Closes). -/
theorem C1_amended_guards_witness :
    ((⟨[], false, 0, 0⟩ : BTState).inTrade = false ∧
     (btStep c1Closes (calculateSMA c1Closes 10)
        (calculateMACD c1Closes 2 3 2).macdLine (calculateMACD c1Closes 2 3 2).signalLine
        (calculateRSI c1Closes 2) 70 ⟨[], false, 0, 0⟩ 3).inTrade = true) ∧
    (((calculateMACD c1Closes 2 3 2).macdLine.getD (3 - 1) none).isSome = true ∧
     ((calculateMACD c1Closes 2 3 2).macdLine.getD 3 none).isSome = true ∧
     ∃ q, (calculateRSI c1Closes 2).getD 3 JSEntry.hole = JSEntry.val (JSNum.num q) ∧
       q < 70) :=
  ⟨⟨rfl, by with_unfolding_all decide⟩,
    C1_amended_guards c1Closes (calculateSMA c1Closes 10)
      (calculateMACD c1Closes 2 3 2).macdLine (calculateMACD c1Closes 2 3 2).signalLine
      (calculateRSI c1Closes 2) 70 ⟨[], false, 0, 0⟩ 3 rfl (by with_unfolding_all decide)⟩

/-- C1 counterexample: with a 10-bar SMA over the 5-bar series c1Closes the
SMA is Undefined everywhere, yet the run opens a position at index 3 — the
unguarded comparison closes[3] > sma[3] compares the null SMA as 0, so the
claim that an Undefined SMA can never trigger entry fails on the code. -/
theorem C1_counterexample :
    (runBacktest c1Closes c1Params).trades = [⟨3, 4, 9, 10, 1⟩] ∧
    (calculateSMA c1Closes c1Params.maPeriod).getD 3 none = none := by
  with_unfolding_all decide

/-- C10: with signal period 9 exceeding both EMA periods (2 and 3), the run
on c10Closes opens at index 4 and closes at index 5 although the signal line
is Undefined at indices 3, 4 and 5 (indeed everywhere); the crossovers are
evaluated against 0, the JS coercion of null: the MACD line crosses zero
upward at 4 and downward at 5. -/
theorem C10_null_signal_as_zero :
    c10Params.macdFast < c10Params.macdSignal ∧
    c10Params.macdSlow < c10Params.macdSignal ∧
    (runBacktest c10Closes c10Params).trades = [⟨4, 5, 10, 9, -1⟩] ∧
    (calculateMACD c10Closes 2 3 9).signalLine.getD 3 none = none ∧
    (calculateMACD c10Closes 2 3 9).signalLine.getD 4 none = none ∧
    (calculateMACD c10Closes 2 3 9).signalLine.getD 5 none = none ∧
    optNum ((calculateMACD c10Closes 2 3 9).macdLine.getD 3 none) ≤ 0 ∧
    0 < optNum ((calculateMACD c10Closes 2 3 9).macdLine.getD 4 none) ∧
    optNum ((calculateMACD c10Closes 2 3 9).macdLine.getD 5 none) < 0 := by
  with_unfolding_all decide

/-- C3 counterexample: RSI over the one-element series [1] with period 2
reads past the end of the input, extends the result to length 3 and stores
a computed NaN at index 2 — not a same-length, all-Undefined series. -/
theorem C3_counterexample :
    (calculateRSI [(1 : ℚ)] 2).length = 3 ∧
    ([(1 : ℚ)] : List ℚ).length = 1 ∧
    (calculateRSI [(1 : ℚ)] 2)[2]? = some (JSEntry.val JSNum.nan) := by
  decide

/-! ### Simulator invariants -/

theorem btStep_inv (closes : List ℚ) (sma macd sig : List (Option ℚ)) (rsi : List JSEntry)
    (ob : ℚ) (st : BTState) (i : ℕ) (h : btInv st i) :
    btInv (btStep closes sma macd sig rsi ob st i) (i + 1) := by
  obtain ⟨h1, h2, h3⟩ := h
  unfold btStep
  by_cases hIn : st.inTrade = false
  · rw [if_pos hIn]
    by_cases hBuy : buySignal closes sma macd sig rsi ob i = true
    · rw [if_pos hBuy]
      refine ⟨fun t ht => ⟨(h1 t ht).1, Nat.lt_succ_of_lt (h1 t ht).2⟩, h2,
        fun _ => ⟨Nat.lt_succ_self i, fun t ht => (h1 t ht).2⟩⟩
    · rw [if_neg hBuy]
      exact ⟨fun t ht => ⟨(h1 t ht).1, Nat.lt_succ_of_lt (h1 t ht).2⟩, h2,
        fun hT => ⟨Nat.lt_succ_of_lt (h3 hT).1, (h3 hT).2⟩⟩
  · rw [if_neg hIn]
    have hT : st.inTrade = true := by
      cases hb : st.inTrade
      · exact absurd hb hIn
      · rfl
    obtain ⟨hEntry, hAll⟩ := h3 hT
    by_cases hSell : (sellSignal macd sig i || i == closes.length - 1) = true
    · rw [if_pos hSell]
      refine ⟨?_, ?_, ?_⟩
      · intro t ht
        rcases List.mem_append.mp ht with hl | hr
        · exact ⟨(h1 t hl).1, Nat.lt_succ_of_lt (h1 t hl).2⟩
        · rw [List.mem_singleton.mp hr]
          exact ⟨hEntry, Nat.lt_succ_self i⟩
      · refine List.chain'_append.mpr ⟨h2, List.chain'_singleton _, ?_⟩
        intro x hx y hy
        have hxy : y = ⟨st.entryIndex, i, st.entryPrice, closes[i]?.getD 0,
            closes[i]?.getD 0 - st.entryPrice⟩ := by
          have h' := hy
          simp at h'
          exact h'.symm
        rw [hxy]
        exact hAll x (mem_of_getLast?_eq hx)
      · intro hc
        exact Bool.noConfusion hc
    · rw [if_neg hSell]
      exact ⟨fun t ht => ⟨(h1 t ht).1, Nat.lt_succ_of_lt (h1 t ht).2⟩, h2,
        fun _ => ⟨Nat.lt_succ_of_lt hEntry, hAll⟩⟩

theorem btInv_foldl (closes : List ℚ) (sma macd sig : List (Option ℚ)) (rsi : List JSEntry)
    (ob : ℚ) :
    ∀ (len s : ℕ) (st : BTState), btInv st s →
      btInv ((List.range' s len).foldl (btStep closes sma macd sig rsi ob) st) (s + len) := by
  intro len
  induction len with
  | zero =>
    intro s st h
    simpa using h
  | succ l ih =>
    intro s st h
    rw [List.range'_succ, List.foldl_cons]
    have hstep := btStep_inv closes sma macd sig rsi ob st s h
    have hres := ih (s + 1) _ hstep
    have hidx : s + (l + 1) = s + 1 + l := by omega
    rw [hidx]
    exact hres

/-- C9: the simulator holds at most one position at a time — every recorded
trade exits strictly after it enters, and consecutive trades are disjoint:
each later trade enters strictly after the earlier one exits. -/
theorem C9_trades_disjoint (closes : List ℚ) (p : BTParams) :
    (∀ t ∈ (runBacktest closes p).trades, t.entryIndex < t.exitIndex) ∧
    List.Chain' (fun a b => a.exitIndex < b.entryIndex) (runBacktest closes p).trades := by
  have h0 : btInv ⟨[], false, 0, 0⟩ 1 := by
    refine ⟨by simp, by simp, fun hc => ?_⟩
    exact Bool.noConfusion hc
  obtain ⟨h1, h2, h3⟩ := btInv_foldl closes (calculateSMA closes p.maPeriod)
    (calculateMACD closes p.macdFast p.macdSlow p.macdSignal).macdLine
    (calculateMACD closes p.macdFast p.macdSlow p.macdSignal).signalLine
    (calculateRSI closes p.rsiPeriod) p.rsiOverbought
    (closes.length - 1) 1 ⟨[], false, 0, 0⟩ h0
  exact ⟨fun t ht => (h1 t ht).1, h2⟩

/-- C2: if a position is open on reaching the final index — the state
machine is in LONG when the loop arrives at the last bar — the run force
liquidates it there: the trades list is non-empty and its last trade's exit
index is the last index of the series, regardless of signal. -/
theorem C2_forced_liquidation (closes : List ℚ) (p : BTParams)
    (h : (btStateAfter closes p (closes.length - 2)).inTrade = true) :
    (runBacktest closes p).trades ≠ [] ∧
    ∃ t, (runBacktest closes p).trades.getLast? = some t ∧
      t.exitIndex = closes.length - 1 := by
  by_cases hn : closes.length < 3
  · exfalso
    have h0 : closes.length - 2 = 0 := by omega
    rw [h0] at h
    exact Bool.noConfusion h
  · have hsplit : btStateAfter closes p (closes.length - 1) =
        btStep closes (calculateSMA closes p.maPeriod)
          (calculateMACD closes p.macdFast p.macdSlow p.macdSignal).macdLine
          (calculateMACD closes p.macdFast p.macdSlow p.macdSignal).signalLine
          (calculateRSI closes p.rsiPeriod) p.rsiOverbought
          (btStateAfter closes p (closes.length - 2)) (closes.length - 1) := by
      simp only [btStateAfter]
      have h1 : closes.length - 1 = (closes.length - 2) + 1 := by omega
      rw [h1, List.range'_concat, List.foldl_append, List.foldl_cons, List.foldl_nil]
      have h2 : 1 + 1 * (closes.length - 2) = closes.length - 1 := by omega
      rw [h2, ← h1]
    have hrb : (runBacktest closes p).trades =
        (btStateAfter closes p (closes.length - 1)).trades := rfl
    rw [hrb, hsplit]
    unfold btStep
    rw [if_neg (by rw [h]; exact fun hc => Bool.noConfusion hc)]
    rw [if_pos (by simp)]
    refine ⟨by simp, ?_⟩
    apply Exists.intro
    constructor
    · show ((btStateAfter closes p (closes.length - 2)).trades ++
        [(⟨(btStateAfter closes p (closes.length - 2)).entryIndex, closes.length - 1,
          (btStateAfter closes p (closes.length - 2)).entryPrice,
          closes.getD (closes.length - 1) 0,
          closes.getD (closes.length - 1) 0 -
            (btStateAfter closes p (closes.length - 2)).entryPrice⟩ : Trade)]).getLast? =
        some (⟨(btStateAfter closes p (closes.length - 2)).entryIndex, closes.length - 1,
          (btStateAfter closes p (closes.length - 2)).entryPrice,
          closes.getD (closes.length - 1) 0,
          closes.getD (closes.length - 1) 0 -
            (btStateAfter closes p (closes.length - 2)).entryPrice⟩ : Trade)
      rw [List.getLast?_append]
      rfl
    · rfl

/-- Witness for C2: on c2Closes the run is in LONG on reaching the final
index 7 and the last trade exits exactly there. -/
theorem C2_forced_liquidation_witness :
    (btStateAfter c2Closes c2Params (c2Closes.length - 2)).inTrade = true ∧
    ((runBacktest c2Closes c2Params).trades ≠ [] ∧
     ∃ t, (runBacktest c2Closes c2Params).trades.getLast? = some t ∧
       t.exitIndex = c2Closes.length - 1) :=
  ⟨by with_unfolding_all decide,
    C2_forced_liquidation c2Closes c2Params (by with_unfolding_all decide)⟩

/-! ### Short series -/

theorem rsiSeed_short (values : List ℚ) (period : ℕ) (hp : 1 ≤ period)
    (hlen : values.length ≤ period) :
    ((List.range' 1 period).foldl (rsiSeedStep values) (JSNum.num 0, JSNum.num 0)).2 =
      JSNum.nan := by
  have h1 : period = (period - 1) + 1 := by omega
  rw [h1, List.range'_concat, List.foldl_append, List.foldl_cons, List.foldl_nil]
  have h2 : 1 + 1 * (period - 1) = period := by omega
  rw [h2]
  simp only [rsiSeedStep, jsIdx_of_le hlen, JSNum.nan_sub, jsGe_nan, Bool.false_eq_true,
    if_false, JSNum.sub_nan]

/-- C3 (amended): for every series shorter than the warm-up, SMA and EMA
return a same-length all-Undefined series; RSI instead, on a series of
length ≤ period, returns an array of length period + 1 — Undefined (null)
below the input length, holes between, and a computed NaN at index period. -/
theorem C3_amended_short_series (values : List ℚ) (period : ℕ) (hp : 1 ≤ period) :
    (values.length < period →
      calculateSMA values period = List.replicate values.length none ∧
      calculateEMA values period = List.replicate values.length none) ∧
    (values.length ≤ period →
      (calculateRSI values period).length = period + 1 ∧
      (∀ i, i < values.length → (calculateRSI values period)[i]? = some JSEntry.null) ∧
      (calculateRSI values period)[period]? = some (JSEntry.val JSNum.nan)) := by
  constructor
  · intro hlen
    constructor
    · rw [calculateSMA_eq values period hp]
      apply List.eq_replicate_iff.mpr
      refine ⟨by simp, ?_⟩
      intro b hb
      obtain ⟨i, hi, rfl⟩ := List.mem_map.mp hb
      have hir := List.mem_range.mp hi
      rw [if_neg (by omega)]
    · rw [calculateEMA_eq values period]
      apply List.eq_replicate_iff.mpr
      refine ⟨by simp, ?_⟩
      intro b hb
      obtain ⟨i, hi, rfl⟩ := List.mem_map.mp hb
      have hir := List.mem_range.mp hi
      rw [if_neg (by omega)]
  · intro hlen
    have hseed := rsiSeed_short values period hp hlen
    have hrange : values.length - (period + 1) = 0 := by omega
    have hval : calculateRSI values period =
        List.replicate values.length JSEntry.null ++
          List.replicate (period - values.length) JSEntry.hole ++
          [JSEntry.val JSNum.nan] := by
      simp only [calculateRSI, hrange]
      rw [show List.range' (period + 1) 0 = [] from rfl, List.foldl_nil]
      rw [hseed, JSNum.nan_div]
      rw [if_neg (fun hc => JSNum.noConfusion hc)]
      rw [rsiFormula_nan_loss]
      unfold jsSet
      rw [List.length_replicate, if_neg (by omega)]
    rw [hval]
    have hAB : (List.replicate values.length JSEntry.null ++
        List.replicate (period - values.length) JSEntry.hole).length = period := by
      simp only [List.length_append, List.length_replicate]
      omega
    refine ⟨?_, ?_, ?_⟩
    · simp only [List.length_append, List.length_replicate, List.length_cons,
        List.length_nil]
      omega
    · intro i hi
      have h1 : i < (List.replicate values.length JSEntry.null ++
          List.replicate (period - values.length) JSEntry.hole).length := by
        rw [hAB]
        omega
      rw [List.getElem?_append, if_pos h1]
      have h2 : i < (List.replicate values.length JSEntry.null).length := by
        simp only [List.length_replicate]
        omega
      rw [List.getElem?_append, if_pos h2]
      rw [List.getElem?_replicate, if_pos hi]
    · have h3 : ¬ period < (List.replicate values.length JSEntry.null ++
          List.replicate (period - values.length) JSEntry.hole).length := by
        rw [hAB]
        omega
      rw [List.getElem?_append, if_neg h3]
      rw [hAB, Nat.sub_self]
      rfl

/-- Witness for the amended C3 at the series [1] with period 2. -/
theorem C3_amended_short_series_witness :
    (1 : ℕ) ≤ 2 ∧
    ((([(1 : ℚ)] : List ℚ).length < 2 →
      calculateSMA [(1 : ℚ)] 2 = List.replicate ([(1 : ℚ)] : List ℚ).length none ∧
      calculateEMA [(1 : ℚ)] 2 = List.replicate ([(1 : ℚ)] : List ℚ).length none) ∧
    (([(1 : ℚ)] : List ℚ).length ≤ 2 →
      (calculateRSI [(1 : ℚ)] 2).length = 2 + 1 ∧
      (∀ i, i < ([(1 : ℚ)] : List ℚ).length →
        (calculateRSI [(1 : ℚ)] 2)[i]? = some JSEntry.null) ∧
      (calculateRSI [(1 : ℚ)] 2)[2]? = some (JSEntry.val JSNum.nan))) :=
  ⟨by decide, C3_amended_short_series [(1 : ℚ)] 2 (by decide)⟩

/-! ### RSI on well-formed input -/

theorem rsiAvgs_succ (values : List ℚ) (period j : ℕ) :
    rsiAvgs values period (j + 1) =
      (((rsiAvgs values period j).1 * ((period : ℚ) - 1) +
        max (values.getD (period + j + 1) 0 - values.getD (period + j) 0) 0) / (period : ℚ),
       ((rsiAvgs values period j).2 * ((period : ℚ) - 1) +
        max (-(values.getD (period + j + 1) 0 - values.getD (period + j) 0)) 0) /
          (period : ℚ)) := by
  rfl

theorem rsiSeed_eq_aux (values : List ℚ) :
    ∀ (l : List ℕ), (∀ j ∈ l, j < values.length) →
      ∀ (g ls : ℚ),
        l.foldl (rsiSeedStep values) (JSNum.num g, JSNum.num ls) =
          (JSNum.num (l.foldl (rsiSeedStepRef values) (g, ls)).1,
           JSNum.num (l.foldl (rsiSeedStepRef values) (g, ls)).2) := by
  intro l
  induction l with
  | nil => intro _ g ls; rfl
  | cons j rest ih =>
    intro hmem g ls
    have hj : j < values.length := hmem j (List.mem_cons_self j rest)
    have hj1 : j - 1 < values.length := by omega
    rw [List.foldl_cons, List.foldl_cons]
    by_cases hc : 0 ≤ values.getD j 0 - values.getD (j - 1) 0
    · have hstep : rsiSeedStep values (JSNum.num g, JSNum.num ls) j =
          (JSNum.num (g + (values.getD j 0 - values.getD (j - 1) 0)), JSNum.num ls) := by
        simp only [rsiSeedStep, jsIdx_of_lt hj, jsIdx_of_lt hj1, JSNum.sub, JSNum.add, jsGe,
          ge_iff_le]
        rw [if_pos (decide_eq_true hc)]
      have hstepr : rsiSeedStepRef values (g, ls) j =
          (g + (values.getD j 0 - values.getD (j - 1) 0), ls) := by
        simp only [rsiSeedStepRef]
        rw [if_pos hc]
      rw [hstep, hstepr]
      exact ih (fun x hx => hmem x (List.mem_cons_of_mem j hx)) _ _
    · have hstep : rsiSeedStep values (JSNum.num g, JSNum.num ls) j =
          (JSNum.num g, JSNum.num (ls - (values.getD j 0 - values.getD (j - 1) 0))) := by
        simp only [rsiSeedStep, jsIdx_of_lt hj, jsIdx_of_lt hj1, JSNum.sub, JSNum.add, jsGe,
          ge_iff_le]
        rw [if_neg (by simpa using hc)]
      have hstepr : rsiSeedStepRef values (g, ls) j =
          (g, ls - (values.getD j 0 - values.getD (j - 1) 0)) := by
        simp only [rsiSeedStepRef]
        rw [if_neg hc]
      rw [hstep, hstepr]
      exact ih (fun x hx => hmem x (List.mem_cons_of_mem j hx)) _ _

theorem rsiSeedRef_nonneg (values : List ℚ) :
    ∀ (l : List ℕ) (g ls : ℚ), 0 ≤ g → 0 ≤ ls →
      0 ≤ (l.foldl (rsiSeedStepRef values) (g, ls)).1 ∧
      0 ≤ (l.foldl (rsiSeedStepRef values) (g, ls)).2 := by
  intro l
  induction l with
  | nil => intro g ls hg hl; exact ⟨hg, hl⟩
  | cons j rest ih =>
    intro g ls hg hl
    rw [List.foldl_cons]
    by_cases hc : 0 ≤ values.getD j 0 - values.getD (j - 1) 0
    · rw [show rsiSeedStepRef values (g, ls) j =
        (g + (values.getD j 0 - values.getD (j - 1) 0), ls) from by
          simp only [rsiSeedStepRef]; rw [if_pos hc]]
      exact ih _ _ (by linarith) hl
    · rw [show rsiSeedStepRef values (g, ls) j =
        (g, ls - (values.getD j 0 - values.getD (j - 1) 0)) from by
          simp only [rsiSeedStepRef]; rw [if_neg hc]]
      exact ih _ _ hg (by linarith)

theorem rsiAvgs_nonneg (values : List ℚ) (period : ℕ) (hp : 1 ≤ period) :
    ∀ j, 0 ≤ (rsiAvgs values period j).1 ∧ 0 ≤ (rsiAvgs values period j).2 := by
  intro j
  induction j with
  | zero =>
    have hseed := rsiSeedRef_nonneg values (List.range' 1 period) 0 0 le_rfl le_rfl
    constructor
    · show 0 ≤ (rsiSeedSums values period).1 / (period : ℚ)
      exact div_nonneg hseed.1 (by positivity)
    · show 0 ≤ (rsiSeedSums values period).2 / (period : ℚ)
      exact div_nonneg hseed.2 (by positivity)
  | succ j ih =>
    have hp1 : (1 : ℚ) ≤ (period : ℚ) := by exact_mod_cast hp
    rw [rsiAvgs_succ]
    constructor
    · apply div_nonneg _ (by positivity)
      have h1 := mul_nonneg ih.1 (by linarith : (0 : ℚ) ≤ (period : ℚ) - 1)
      have h2 := le_max_right
        (values.getD (period + j + 1) 0 - values.getD (period + j) 0) (0 : ℚ)
      linarith
    · apply div_nonneg _ (by positivity)
      have h1 := mul_nonneg ih.2 (by linarith : (0 : ℚ) ≤ (period : ℚ) - 1)
      have h2 := le_max_right
        (-(values.getD (period + j + 1) 0 - values.getD (period + j) 0)) (0 : ℚ)
      linarith

theorem rsiFormula_num (g l : ℚ) (hl : l ≠ 0) (hne : (1 : ℚ) + g / l ≠ 0) :
    rsiFormula (JSNum.num g) (JSNum.num l) = JSNum.num (100 - 100 / (1 + g / l)) := by
  unfold rsiFormula
  rw [show JSNum.div (JSNum.num g) (JSNum.num l) = JSNum.num (g / l) from by
    simp [JSNum.div, hl]]
  rw [show JSNum.add (JSNum.num 1) (JSNum.num (g / l)) = JSNum.num (1 + g / l) from rfl]
  rw [show JSNum.div (JSNum.num 100) (JSNum.num (1 + g / l)) =
    JSNum.num (100 / (1 + g / l)) from by simp [JSNum.div, hne]]
  rfl

theorem rsiValSpec_bounds (values : List ℚ) (period : ℕ) (hp : 1 ≤ period) (j : ℕ) :
    0 ≤ rsiValSpec values period j ∧ rsiValSpec values period j ≤ 100 ∧
      (rsiValSpec values period j = 100 ↔ (rsiAvgs values period j).2 = 0) := by
  obtain ⟨hg, hl⟩ := rsiAvgs_nonneg values period hp j
  unfold rsiValSpec
  by_cases hc : (rsiAvgs values period j).2 = 0
  · rw [if_pos hc]
    exact ⟨by norm_num, le_rfl, by simp [hc]⟩
  · rw [if_neg hc]
    have hlpos : 0 < (rsiAvgs values period j).2 := lt_of_le_of_ne hl (Ne.symm hc)
    have hrs : 0 ≤ (rsiAvgs values period j).1 / (rsiAvgs values period j).2 :=
      div_nonneg hg hl
    have h1 : (0 : ℚ) < 1 + (rsiAvgs values period j).1 / (rsiAvgs values period j).2 := by
      linarith
    have hd1 : 100 / (1 + (rsiAvgs values period j).1 / (rsiAvgs values period j).2) ≤ 100 := by
      rw [div_le_iff h1]
      nlinarith
    have hd0 : 0 < 100 / (1 + (rsiAvgs values period j).1 / (rsiAvgs values period j).2) := by
      positivity
    refine ⟨by linarith, by linarith, ?_⟩
    constructor
    · intro h100
      exfalso
      linarith
    · intro hl0
      exact absurd hl0 hc

theorem JSNum.mul_num (a b : ℚ) :
    JSNum.mul (JSNum.num a) (JSNum.num b) = JSNum.num (a * b) := rfl

theorem JSNum.add_num (a b : ℚ) :
    JSNum.add (JSNum.num a) (JSNum.num b) = JSNum.num (a + b) := rfl

theorem JSNum.sub_num (a b : ℚ) :
    JSNum.sub (JSNum.num a) (JSNum.num b) = JSNum.num (a - b) := rfl

theorem JSNum.div_num (a b : ℚ) (hb : b ≠ 0) :
    JSNum.div (JSNum.num a) (JSNum.num b) = JSNum.num (a / b) := by
  simp [JSNum.div, hb]

theorem wilderStep_inv (values : List ℚ) (period : ℕ) (hp : 1 ≤ period)
    (acc : List JSEntry × JSNum × JSNum) (i : ℕ)
    (hi1 : period + 1 ≤ i) (hi2 : i < values.length)
    (h : wilderInv values period acc (i - 1)) :
    wilderInv values period (wilderStep values period acc i) i := by
  obtain ⟨hlen, hlow, hmid, hhigh, hg, hl⟩ := h
  have hi1' : i - 1 < values.length := by omega
  have hperQ : ((period : ℚ)) ≠ 0 := Nat.cast_ne_zero.mpr (by omega)
  have hidx : i - period = ((i - 1) - period) + 1 := by omega
  have e1 : period + ((i - 1) - period) + 1 = i := by omega
  have e2 : period + ((i - 1) - period) = i - 1 := by omega
  have hG : (rsiAvgs values period (i - period)).1 =
      ((rsiAvgs values period ((i - 1) - period)).1 * ((period : ℚ) - 1) +
        max (values.getD i 0 - values.getD (i - 1) 0) 0) / (period : ℚ) := by
    rw [hidx, rsiAvgs_succ, e1, e2]
  have hL : (rsiAvgs values period (i - period)).2 =
      ((rsiAvgs values period ((i - 1) - period)).2 * ((period : ℚ) - 1) +
        max (-(values.getD i 0 - values.getD (i - 1) 0)) 0) / (period : ℚ) := by
    rw [hidx, rsiAvgs_succ, e1, e2]
  have hstep : wilderStep values period acc i =
      (jsSet acc.1 i (JSEntry.val (JSNum.num (rsiValSpec values period (i - period)))),
       JSNum.num (rsiAvgs values period (i - period)).1,
       JSNum.num (rsiAvgs values period (i - period)).2) := by
    simp only [wilderStep]
    rw [hg, hl, jsIdx_of_lt hi2, jsIdx_of_lt hi1', JSNum.sub_num]
    rw [show (if jsGt (JSNum.num (values.getD i 0 - values.getD (i - 1) 0)) (JSNum.num 0)
        then JSNum.num (values.getD i 0 - values.getD (i - 1) 0) else JSNum.num 0) =
        JSNum.num (max (values.getD i 0 - values.getD (i - 1) 0) 0) from by
      by_cases hcc : values.getD i 0 - values.getD (i - 1) 0 > 0
      · rw [if_pos (by simp only [jsGt, decide_eq_true_eq]; exact hcc),
          max_eq_left (le_of_lt hcc)]
      · rw [if_neg (by simp only [jsGt, decide_eq_true_eq]; exact hcc),
          max_eq_right (le_of_not_lt hcc)]]
    rw [show (if jsLt (JSNum.num (values.getD i 0 - values.getD (i - 1) 0)) (JSNum.num 0)
        then JSNum.neg (JSNum.num (values.getD i 0 - values.getD (i - 1) 0))
        else JSNum.num 0) =
        JSNum.num (max (-(values.getD i 0 - values.getD (i - 1) 0)) 0) from by
      by_cases hcc : values.getD i 0 - values.getD (i - 1) 0 < 0
      · rw [if_pos (by simp only [jsLt, decide_eq_true_eq]; exact hcc)]
        show JSNum.num (-(values.getD i 0 - values.getD (i - 1) 0)) = _
        rw [max_eq_left (by linarith)]
      · rw [if_neg (by simp only [jsLt, decide_eq_true_eq]; exact hcc)]
        rw [max_eq_right (by linarith)]]
    rw [JSNum.mul_num, JSNum.add_num, JSNum.div_num _ _ hperQ,
      JSNum.mul_num, JSNum.add_num, JSNum.div_num _ _ hperQ]
    rw [← hG, ← hL]
    by_cases hLz : (rsiAvgs values period (i - period)).2 = 0
    · rw [if_pos (by rw [hLz])]
      rw [show rsiValSpec values period (i - period) = 100 from by
        unfold rsiValSpec
        rw [if_pos hLz]]
    · rw [if_neg (by simp [hLz])]
      obtain ⟨hgn, hln⟩ := rsiAvgs_nonneg values period hp (i - period)
      have hLpos : 0 < (rsiAvgs values period (i - period)).2 :=
        lt_of_le_of_ne hln (Ne.symm hLz)
      have h1 : (1 : ℚ) + (rsiAvgs values period (i - period)).1 /
          (rsiAvgs values period (i - period)).2 ≠ 0 := by
        have := div_nonneg hgn hln
        intro hcon
        linarith
      rw [rsiFormula_num _ _ hLz h1]
      rw [show rsiValSpec values period (i - period) = 100 - 100 / (1 +
          (rsiAvgs values period (i - period)).1 /
            (rsiAvgs values period (i - period)).2) from by
        unfold rsiValSpec
        rw [if_neg hLz]]
  have hilen : i < acc.1.length := by
    rw [hlen]
    exact hi2
  have hset : jsSet acc.1 i
      (JSEntry.val (JSNum.num (rsiValSpec values period (i - period)))) =
      acc.1.set i (JSEntry.val (JSNum.num (rsiValSpec values period (i - period)))) := by
    unfold jsSet
    rw [if_pos hilen]
  rw [hstep]
  refine ⟨?_, ?_, ?_, ?_, rfl, rfl⟩
  · show (jsSet acc.1 i _).length = values.length
    rw [hset, List.length_set]
    exact hlen
  · intro j hjlen hjp
    show (jsSet acc.1 i _)[j]? = some JSEntry.null
    rw [hset, List.getElem?_set, if_neg (by omega)]
    exact hlow j hjlen hjp
  · intro j hpj hji hjlen
    show (jsSet acc.1 i _)[j]? = _
    rw [hset, List.getElem?_set]
    by_cases hje : i = j
    · subst hje
      rw [if_pos rfl, if_pos hilen]
    · rw [if_neg hje]
      exact hmid j hpj (by omega) hjlen
  · intro j hij hjlen
    show (jsSet acc.1 i _)[j]? = some JSEntry.null
    rw [hset, List.getElem?_set, if_neg (by omega)]
    exact hhigh j (by omega) hjlen

theorem wilder_foldl (values : List ℚ) (period : ℕ) (hp : 1 ≤ period) :
    ∀ (len s : ℕ) (acc : List JSEntry × JSNum × JSNum),
      period + 1 ≤ s → s + len ≤ values.length →
      wilderInv values period acc (s - 1) →
      wilderInv values period
        ((List.range' s len).foldl (wilderStep values period) acc) (s - 1 + len) := by
  intro len
  induction len with
  | zero =>
    intro s acc _ _ h
    simpa using h
  | succ l ih =>
    intro s acc hs hlen h
    rw [List.range'_succ, List.foldl_cons]
    have hstep := wilderStep_inv values period hp acc s hs (by omega) h
    have hres := ih (s + 1) _ (by omega) (by omega) (by simpa using hstep)
    have hidx2 : s - 1 + (l + 1) = (s + 1) - 1 + l := by omega
    rw [hidx2]
    exact hres

theorem rsi_branch_val (values : List ℚ) (period j : ℕ) (hp : 1 ≤ period) :
    (if JSNum.num (rsiAvgs values period j).2 = JSNum.num 0
     then JSEntry.val (JSNum.num 100)
     else JSEntry.val (rsiFormula (JSNum.num (rsiAvgs values period j).1)
       (JSNum.num (rsiAvgs values period j).2))) =
    JSEntry.val (JSNum.num (rsiValSpec values period j)) := by
  by_cases hLz : (rsiAvgs values period j).2 = 0
  · rw [if_pos (by rw [hLz])]
    rw [show rsiValSpec values period j = 100 from by
      unfold rsiValSpec
      rw [if_pos hLz]]
  · rw [if_neg (by simp [hLz])]
    obtain ⟨hgn, hln⟩ := rsiAvgs_nonneg values period hp j
    have h1 : (1 : ℚ) + (rsiAvgs values period j).1 / (rsiAvgs values period j).2 ≠ 0 := by
      have := div_nonneg hgn hln
      intro hcon
      linarith
    rw [rsiFormula_num _ _ hLz h1]
    rw [show rsiValSpec values period j = 100 - 100 / (1 + (rsiAvgs values period j).1 /
      (rsiAvgs values period j).2) from by
      unfold rsiValSpec
      rw [if_neg hLz]]

/-- C6: with length > period and positive period, RSI is Undefined at
indices 0..period-1, and at every defined index holds exactly the spec value
rsiValSpec, which lies in [0, 100] and equals 100 precisely when the
smoothed average loss at that index is zero. -/
theorem C6_rsi_bounds (values : List ℚ) (period : ℕ) (hp : 1 ≤ period)
    (hlen : period < values.length) (i : ℕ) (hi : i < values.length) :
    (i < period → (calculateRSI values period)[i]? = some JSEntry.null) ∧
    (period ≤ i →
      (calculateRSI values period)[i]? =
        some (JSEntry.val (JSNum.num (rsiValSpec values period (i - period)))) ∧
      0 ≤ rsiValSpec values period (i - period) ∧
      rsiValSpec values period (i - period) ≤ 100 ∧
      (rsiValSpec values period (i - period) = 100 ↔
        (rsiAvgs values period (i - period)).2 = 0)) := by
  have hperQ : ((period : ℚ)) ≠ 0 := Nat.cast_ne_zero.mpr (by omega)
  have hmem : ∀ j ∈ List.range' 1 period, j < values.length := by
    intro j hj
    have := List.mem_range'_1.mp hj
    omega
  have hseed := rsiSeed_eq_aux values (List.range' 1 period) hmem 0 0
  have hrsi : calculateRSI values period =
      ((List.range' (period + 1) (values.length - (period + 1))).foldl
        (wilderStep values period)
        ((List.replicate values.length JSEntry.null).set period
          (JSEntry.val (JSNum.num (rsiValSpec values period 0))),
         JSNum.num (rsiAvgs values period 0).1,
         JSNum.num (rsiAvgs values period 0).2)).1 := by
    simp only [calculateRSI]
    rw [hseed]
    rw [JSNum.div_num _ _ hperQ, JSNum.div_num _ _ hperQ]
    rw [show JSNum.num (((List.range' 1 period).foldl (rsiSeedStepRef values) (0, 0)).1 /
      (period : ℚ)) = JSNum.num (rsiAvgs values period 0).1 from rfl]
    rw [show JSNum.num (((List.range' 1 period).foldl (rsiSeedStepRef values) (0, 0)).2 /
      (period : ℚ)) = JSNum.num (rsiAvgs values period 0).2 from rfl]
    rw [← apply_ite (jsSet (List.replicate values.length JSEntry.null) period)]
    rw [rsi_branch_val values period 0 hp]
    rw [show jsSet (List.replicate values.length JSEntry.null) period
        (JSEntry.val (JSNum.num (rsiValSpec values period 0))) =
        (List.replicate values.length JSEntry.null).set period
          (JSEntry.val (JSNum.num (rsiValSpec values period 0))) from by
      unfold jsSet
      rw [if_pos (by rw [List.length_replicate]; omega)]]
  have hinv0 : wilderInv values period
      ((List.replicate values.length JSEntry.null).set period
        (JSEntry.val (JSNum.num (rsiValSpec values period 0))),
       JSNum.num (rsiAvgs values period 0).1,
       JSNum.num (rsiAvgs values period 0).2) period := by
    refine ⟨?_, ?_, ?_, ?_, ?_, ?_⟩
    · rw [List.length_set, List.length_replicate]
    · intro j hjlen hjp
      rw [List.getElem?_set, if_neg (by omega), List.getElem?_replicate, if_pos hjlen]
    · intro j hpj hji hjlen
      have hje : j = period := by omega
      subst hje
      rw [List.getElem?_set, if_pos rfl,
        if_pos (by rw [List.length_replicate]; omega), Nat.sub_self]
    · intro j hij hjlen
      rw [List.getElem?_set, if_neg (by omega), List.getElem?_replicate, if_pos hjlen]
    · rw [Nat.sub_self]
    · rw [Nat.sub_self]
  have hfold := wilder_foldl values period hp (values.length - (period + 1)) (period + 1) _
    le_rfl (by omega) (by simpa using hinv0)
  obtain ⟨hflen, hflow, hfmid, hfhigh, _, _⟩ := hfold
  constructor
  · intro hip
    rw [hrsi]
    exact hflow i hi hip
  · intro hpi
    have hb := rsiValSpec_bounds values period hp (i - period)
    refine ⟨?_, hb.1, hb.2.1, hb.2.2⟩
    rw [hrsi]
    exact hfmid i hpi (by omega) hi

/-- Witness for C6 at the spec example series, period 3, index 5. -/
theorem C6_rsi_bounds_witness :
    1 ≤ 3 ∧ 3 < exCloses.length ∧ 5 < exCloses.length ∧
      ((5 < 3 → (calculateRSI exCloses 3)[5]? = some JSEntry.null) ∧
       (3 ≤ 5 →
         (calculateRSI exCloses 3)[5]? =
           some (JSEntry.val (JSNum.num (rsiValSpec exCloses 3 (5 - 3)))) ∧
         0 ≤ rsiValSpec exCloses 3 (5 - 3) ∧
         rsiValSpec exCloses 3 (5 - 3) ≤ 100 ∧
         (rsiValSpec exCloses 3 (5 - 3) = 100 ↔ (rsiAvgs exCloses 3 (5 - 3)).2 = 0))) :=
  ⟨by decide, by decide, by decide,
    C6_rsi_bounds exCloses 3 (by decide) (by decide) 5 (by decide)⟩

/-- Witness for C9 at the spec example run. -/
theorem C9_trades_disjoint_witness :
    (∀ t ∈ (runBacktest exCloses exParams).trades, t.entryIndex < t.exitIndex) ∧
    List.Chain' (fun a b => a.exitIndex < b.entryIndex)
      (runBacktest exCloses exParams).trades :=
  C9_trades_disjoint exCloses exParams
